import Mathlib

/-!
Verification of the financial projection engine of the visionfund-finance
repository against its natural-language specification.

The definitions below are a shallow embedding of the TypeScript sources
src/utils/financialCalculations.ts and the goal-metrics module (the file
defining calculateGoalMetrics).  JavaScript IEEE-754 numbers are idealised
as exact rationals; the two transcendental primitives Math.log and
Math.pow (the latter only at the one non-integer call site) are abstracted
as explicit function parameters jsLog and jsPow, and every theorem that
depends on them carries as hypotheses exactly the analytic facts about the
real logarithm and power that the proof uses.  Concrete computable
instantiations satisfying those hypotheses are provided for witnesses.

Calendar dates (JavaScript Date values) are modelled at day granularity by
the JsDate structure; the time-of-day component plays no role in any of
the verified properties.  The millisecond-based sentinel
Date.now() + 1000*60*60*24*365*100 adds exactly 36500 days to the current
instant, and is modelled by addDays now 36500 using exact civil-calendar
day arithmetic.
-/

namespace VisionFund

/-- A JavaScript Date at day granularity: year, zero-based month (0 to 11 in
normalised form) and one-based day of month.  Comparison of JS Date values
is comparison of their timestamps, which for valid dates (at equal times of
day) is lexicographic comparison of (year, month, day). -/
structure JsDate where
  year : Int
  month : Int
  day : Int
deriving DecidableEq, Repr

/-- Linear month index of a date: 12 * year + month.  Timestamp order on
valid dates is lexicographic on (monthIdx, day). -/
def monthIdx (d : JsDate) : Int := 12 * d.year + d.month

/-- Order on JsDate values modelling comparison of JS Date timestamps. -/
def dateLe (a b : JsDate) : Prop :=
  monthIdx a < monthIdx b ∨ (monthIdx a = monthIdx b ∧ a.day ≤ b.day)

/-- Strict order on JsDate values modelling strict timestamp comparison. -/
def dateLt (a b : JsDate) : Prop :=
  monthIdx a < monthIdx b ∨ (monthIdx a = monthIdx b ∧ a.day < b.day)

instance (a b : JsDate) : Decidable (dateLe a b) := by
  unfold dateLe; infer_instance

instance (a b : JsDate) : Decidable (dateLt a b) := by
  unfold dateLt; infer_instance

/-- The JS Date constructor new Date(year, month, day) with an
out-of-range month argument: the month is normalised into 0..11 and the
year adjusted accordingly (floor division).  All uses in the sources pass
day values that need no day-level normalisation. -/
def mkDateNorm (y m d : Int) : JsDate :=
  ⟨y + m / 12, m % 12, d⟩

/-- Embeds getContributionStartDate of financialCalculations.ts: the first
day of the month following the goal-creation date, via
new Date(getFullYear(), getMonth() + 1, 1). -/
def getContributionStartDate (createdAt : JsDate) : JsDate :=
  mkDateNorm createdAt.year (createdAt.month + 1) 1

/-- Embeds d.setMonth(d.getMonth() + k): month arithmetic with
normalisation.  All call sites in the sources apply it to a date whose day
is 1, so no day-overflow normalisation can occur. -/
def addMonths (d : JsDate) (k : Int) : JsDate :=
  mkDateNorm d.year (d.month + k) d.day

/-- Gregorian leap-year test, as implemented by the JS Date object. -/
def isLeapYear (y : Int) : Prop := (y % 4 = 0 ∧ y % 100 ≠ 0) ∨ y % 400 = 0

instance (y : Int) : Decidable (isLeapYear y) := by
  unfold isLeapYear; infer_instance

/-- Number of days in the given zero-based month of the given year,
as computed by new Date(year, month + 1, 0).getDate(). -/
def daysInMonth (y m : Int) : Int :=
  let m12 := m % 12
  if m12 = 1 then (if isLeapYear y then 29 else 28)
  else if m12 = 3 ∨ m12 = 5 ∨ m12 = 8 ∨ m12 = 10 then 30
  else 31

/-- Days since the civil epoch 1970-01-01 of a (year, zero-based month,
day) triple; standard civil-calendar conversion, used to model
millisecond arithmetic on JS Date timestamps at day granularity. -/
def daysFromCivil (d : JsDate) : Int :=
  let m1 : Int := d.month + 1
  let y : Int := if m1 ≤ 2 then d.year - 1 else d.year
  let era : Int := y / 400
  let yoe : Int := y - era * 400
  let mp : Int := if m1 > 2 then m1 - 3 else m1 + 9
  let doy : Int := (153 * mp + 2) / 5 + d.day - 1
  let doe : Int := yoe * 365 + yoe / 4 - yoe / 100 + doy
  era * 146097 + doe - 719468

/-- Inverse of daysFromCivil: the civil date of a day count since
1970-01-01. -/
def civilFromDays (z0 : Int) : JsDate :=
  let z : Int := z0 + 719468
  let era : Int := z / 146097
  let doe : Int := z - era * 146097
  let yoe : Int := (doe - doe / 1460 + doe / 36524 - doe / 146096) / 365
  let y : Int := yoe + era * 400
  let doy : Int := doe - (365 * yoe + yoe / 4 - yoe / 100)
  let mp : Int := (5 * doy + 2) / 153
  let d : Int := doy - (153 * mp + 2) / 5 + 1
  let m1 : Int := if mp < 10 then mp + 3 else mp - 9
  ⟨(if m1 ≤ 2 then y + 1 else y), m1 - 1, d⟩

/-- Adds a number of days to a date; models adding n * 86400000
milliseconds to a JS Date timestamp. -/
def addDays (d : JsDate) (n : Int) : JsDate :=
  civilFromDays (daysFromCivil d + n)

/-- The far-future sentinel new Date(Date.now() + 1000*60*60*24*365*100):
exactly 36500 days after the current instant. -/
def sentinelDate (now : JsDate) : JsDate := addDays now 36500

/-- Math.round on an exact rational: rounds half away from zero upward,
which for all inputs equals the floor of x + 1/2. -/
def jsRound (x : ℚ) : ℚ := (⌊x + 1/2⌋ : ℤ)

/-- Embeds calculateFutureValue: FV = PV * (1 + r)^n with an explicit
zero-rate branch.  The exponent is a JS number; Math.pow is abstracted by
the jsPow parameter. -/
def calculateFutureValue (jsPow : ℚ → ℚ → ℚ) (presentValue rate periods : ℚ) : ℚ :=
  if rate = 0 then presentValue
  else presentValue * jsPow (1 + rate) periods

/-- Embeds calculateAnnuityFutureValue: FVA = PMT * (((1 + r)^n - 1) / r)
with an explicit zero-rate branch. -/
def calculateAnnuityFutureValue (jsPow : ℚ → ℚ → ℚ) (payment rate periods : ℚ) : ℚ :=
  if rate = 0 then payment * periods
  else payment * ((jsPow (1 + rate) periods - 1) / rate)

/-- Embeds calculatePayment: the standard PMT formula for the remaining
amount after growing the initial amount, with guards for non-positive
period counts and already-funded goals.  The single call site passes the
integer contribution-period count, so the period argument is an integer. -/
def calculatePayment (jsPow : ℚ → ℚ → ℚ) (futureValue presentValue rate : ℚ)
    (periods : Int) : ℚ :=
  if periods ≤ 0 then 0
  else
    let futureValueOfInitial := calculateFutureValue jsPow presentValue rate (periods : ℚ)
    let remainingNeeded := futureValue - futureValueOfInitial
    if remainingNeeded ≤ 0 then 0
    else if rate = 0 then remainingNeeded / (periods : ℚ)
    else remainingNeeded / ((jsPow (1 + rate) (periods : ℚ) - 1) / rate)

/-- Embeds calculatePeriods (the NPER formula).  The IEEE value Infinity
returned on the unreachable branches is modelled by none; Math.log is
abstracted by the jsLog parameter. -/
def calculatePeriods (jsLog : ℚ → ℚ) (rate payment presentValue futureValue : ℚ) :
    Option ℚ :=
  if payment ≤ 0 then
    if rate = 0 then none
    else if presentValue ≤ 0 then none
    else some (jsLog (futureValue / presentValue) / jsLog (1 + rate))
  else if rate = 0 then some ((futureValue - presentValue) / payment)
  else
    let numeratorArg := (payment + futureValue * rate) / (payment + presentValue * rate)
    if numeratorArg ≤ 0 then none
    else some (jsLog numeratorArg / jsLog (1 + rate))

/-- Embeds calculateContributionPeriods: month-index difference between
the contribution start date and the target date, plus one whenever the
target day of month is at least 1, floored at 1. -/
def calculateContributionPeriods (contributionStartDate targetDate : JsDate) : Int :=
  let periods : Int :=
    (targetDate.year - contributionStartDate.year) * 12 +
      (targetDate.month - contributionStartDate.month)
  let periods := if 1 ≤ targetDate.day then periods + 1 else periods
  max 1 periods

/-- Embeds calculateMonthsBetweenDates: whole-month difference plus a
fractional-day adjustment dayDiff / daysInEndMonth when the end day is
later in the month, floored at 0. -/
def calculateMonthsBetweenDates (startDate endDate : JsDate) : ℚ :=
  let yearDiff : Int := endDate.year - startDate.year
  let monthDiff : Int := endDate.month - startDate.month
  let dayDiff : Int := endDate.day - startDate.day
  let totalMonths : ℚ := ((yearDiff * 12 + monthDiff : Int) : ℚ)
  let totalMonths :=
    if 0 < dayDiff then
      totalMonths + (dayDiff : ℚ) / ((daysInMonth endDate.year endDate.month : Int) : ℚ)
    else totalMonths
  max 0 totalMonths

/-- Embeds calculateMonthlyPayment of financialCalculations.ts: the PMT
value for the contribution-period count to the target date, rounded up to
the cent and floored at 0.  The goalCreatedAt string argument is modelled
by its parsed date. -/
def calculateMonthlyPayment (jsPow : ℚ → ℚ → ℚ) (targetAmount initialAmount : ℚ)
    (targetDate goalCreatedAt : JsDate) (annualRate : ℚ) : ℚ :=
  let contributionStartDate := getContributionStartDate goalCreatedAt
  let periods := calculateContributionPeriods contributionStartDate targetDate
  let monthlyRate := annualRate / 100 / 12
  let payment := calculatePayment jsPow targetAmount initialAmount monthlyRate periods
  max 0 ((⌈payment * 100⌉ : ℤ) / 100 : ℚ)

/-- Embeds calculateCompletionDate of financialCalculations.ts.  The
ambient clock reads new Date() and Date.now() are threaded as the explicit
now parameter; the goalCreatedAt string argument is modelled by its parsed
date. -/
def calculateCompletionDate (jsLog : ℚ → ℚ) (now : JsDate)
    (targetAmount initialAmount monthlyContribution annualRate : ℚ)
    (goalCreatedAt : JsDate) : JsDate :=
  let monthlyRate := annualRate / 100 / 12
  let contributionStartDate := getContributionStartDate goalCreatedAt
  if targetAmount ≤ initialAmount then now
  else if monthlyContribution ≤ 0 ∧ monthlyRate = 0 then sentinelDate now
  else
    match calculatePeriods jsLog monthlyRate monthlyContribution initialAmount targetAmount with
    | none => sentinelDate now
    | some periods =>
        if 1200 < periods then sentinelDate now
        else addMonths contributionStartDate ⌈periods⌉

/-- Embeds calculateProjectedTotal: grows the initial amount from goal
creation to the contribution start date and then over the contribution
periods, adds the annuity future value of the monthly contributions, and
rounds to the cent. -/
def calculateProjectedTotal (jsPow : ℚ → ℚ → ℚ)
    (initialAmount monthlyContribution : ℚ) (targetDate goalCreatedAt : JsDate)
    (annualRate : ℚ) : ℚ :=
  let contributionStartDate := getContributionStartDate goalCreatedAt
  let periods := calculateContributionPeriods contributionStartDate targetDate
  let monthlyRate := annualRate / 100 / 12
  let monthsToContributionStart := calculateMonthsBetweenDates goalCreatedAt contributionStartDate
  let initialAmountAtContributionStart :=
    calculateFutureValue jsPow initialAmount monthlyRate monthsToContributionStart
  let futureValueOfInitial :=
    calculateFutureValue jsPow initialAmountAtContributionStart monthlyRate (periods : ℚ)
  let futureValueOfContributions :=
    calculateAnnuityFutureValue jsPow monthlyContribution monthlyRate (periods : ℚ)
  jsRound ((futureValueOfInitial + futureValueOfContributions) * 100) / 100

/-- Embeds calculateProgressPercentage: 0 for a non-positive target,
otherwise the ratio as a percentage clamped to the range 0 to 100. -/
def calculateProgressPercentage (currentAmount targetAmount : ℚ) : ℚ :=
  if targetAmount ≤ 0 then 0
  else min 100 (max 0 (currentAmount / targetAmount * 100))

/-- The four on-track statuses of the goal-metrics module. -/
inductive TrackStatus where
  | onTrack
  | behind
  | ahead
  | completed
deriving DecidableEq, Repr

/-- A stored goal record as consumed by calculateGoalMetrics.  Nullable
numeric columns are Option values (the source reads them with a zero
default); created_at is the parse of the stored timestamp string, none
modelling an unparseable value, and target_date is the stored target
date. -/
structure Goal where
  current_total : Option ℚ
  target_amount : ℚ
  initial_amount : Option ℚ
  monthly_pledge : ℚ
  expected_return_rate : Option ℚ
  created_at : Option JsDate
  target_date : JsDate
deriving DecidableEq, Repr

/-- The result record of calculateGoalMetrics: the goal spread together
with the three computed fields.  The projected completion date is kept as
a date; the ISO string formatting of the source is presentation only. -/
structure GoalWithCalculations where
  goal : Goal
  progressPercentage : ℚ
  onTrackStatus : TrackStatus
  projectedCompletionDate : JsDate
deriving DecidableEq, Repr

/-- Embeds the status determination inside calculateGoalMetrics: completed
when the current total has reached the target; on-track before the first
contribution month; otherwise a comparison of the actual total against the
expected total with a tolerance band of ten percent of the monthly
pledge. -/
def calcOnTrackStatus (now created : JsDate) (g : Goal) : TrackStatus :=
  let contributionStartDate := getContributionStartDate created
  let currentMonth : JsDate := ⟨now.year, now.month, 1⟩
  if g.target_amount ≤ g.current_total.getD 0 then .completed
  else if dateLt currentMonth contributionStartDate then .onTrack
  else
    let monthsSinceStart : Int :=
      max 0 ((now.year - contributionStartDate.year) * 12 +
        (now.month - contributionStartDate.month) + 1)
    let expectedTotal := g.initial_amount.getD 0 + g.monthly_pledge * (monthsSinceStart : ℚ)
    let actualTotal := g.current_total.getD 0
    let tolerance := g.monthly_pledge * (1/10)
    if expectedTotal + tolerance ≤ actualTotal then .ahead
    else if actualTotal < expectedTotal - tolerance then .behind
    else .onTrack

/-- The try block of calculateGoalMetrics.  The only statement of the
block that can throw in the source is projectedDate.toISOString(), which
throws exactly when the stored created_at string does not parse (an
invalid date propagates through every date computation to an invalid
projected date); this is modelled by failing on created_at = none before
the dependent computations. -/
def goalMetricsTry (jsLog : ℚ → ℚ) (now : JsDate) (g : Goal) :
    Except Unit GoalWithCalculations :=
  let progressPercentage :=
    calculateProgressPercentage (g.current_total.getD 0) g.target_amount
  match g.created_at with
  | none => .error ()
  | some created =>
      let projectedDate := calculateCompletionDate jsLog now g.target_amount
        (g.initial_amount.getD 0) g.monthly_pledge (g.expected_return_rate.getD 0) created
      let onTrackStatus := calcOnTrackStatus now created g
      .ok ⟨g, progressPercentage, onTrackStatus, projectedDate⟩

/-- Embeds calculateGoalMetrics: the try block with its catch clause,
which returns the input goal with zero progress, the on-track status and
the stored target date as the projected completion date. -/
def calculateGoalMetrics (jsLog : ℚ → ℚ) (now : JsDate) (g : Goal) :
    GoalWithCalculations :=
  match goalMetricsTry jsLog now g with
  | .ok r => r
  | .error _ => ⟨g, 0, .onTrack, g.target_date⟩

/-- Modelled from the spec: the status classifier exactly as the claim
describes it, with the ahead comparison amended from strict to non-strict
inequality (the single point where the source differs from the claim).
Completed when currentTotal is at least targetAmount; on-track when now is
before the contribution start date; otherwise ahead when the current total
is at least expectedTotal plus tolerance, behind when strictly below
expectedTotal minus tolerance, on-track in between. -/
def statusPerSpecAmended (now created : JsDate) (g : Goal) : TrackStatus :=
  let start := getContributionStartDate created
  if g.target_amount ≤ g.current_total.getD 0 then .completed
  else if dateLt now start then .onTrack
  else
    let monthsSinceStart : Int :=
      (now.year - start.year) * 12 + (now.month - start.month) + 1
    let expectedTotal := g.initial_amount.getD 0 + g.monthly_pledge * (monthsSinceStart : ℚ)
    let tolerance := g.monthly_pledge * (1/10)
    if expectedTotal + tolerance ≤ g.current_total.getD 0 then .ahead
    else if g.current_total.getD 0 < expectedTotal - tolerance then .behind
    else .onTrack

/-- Computable stand-in for Math.log used by witnesses: x maps to
(x - 1) / x.  It is strictly monotone on the positive rationals, positive
above 1, and satisfies the sub-additive power bound that the theorems
assume of the logarithm. -/
def jsLogQ (x : ℚ) : ℚ := (x - 1) / x

/-- Computable stand-in for Math.pow used by witnesses: exact integer
power on integer exponents, junk elsewhere. -/
def jsPowQ (x e : ℚ) : ℚ := if e.den = 1 then x ^ e.num else 0

theorem jsLogQ_mono : ∀ a b : ℚ, 0 < a → a ≤ b → jsLogQ a ≤ jsLogQ b := by
  intro a b ha hab
  have hb : 0 < b := lt_of_lt_of_le ha hab
  unfold jsLogQ
  rw [div_le_div_iff₀ ha hb]
  nlinarith

theorem jsLogQ_pos : ∀ x : ℚ, 1 < x → 0 < jsLogQ x := by
  intro x hx
  unfold jsLogQ
  exact div_pos (by linarith) (by linarith)

theorem one_sub_pow_le (y : ℚ) (h0 : 0 ≤ y) (h1 : y ≤ 1) :
    ∀ n : ℕ, 1 - y ^ n ≤ (n : ℚ) * (1 - y) := by
  intro n
  induction n with
  | zero => simp
  | succ n ih =>
      have hyn : y ^ n ≤ 1 := pow_le_one₀ h0 h1
      have hpow : y ^ (n + 1) = y ^ n * y := pow_succ y n
      push_cast
      nlinarith

theorem jsLogQ_pow_le : ∀ x : ℚ, 1 ≤ x → ∀ n : ℕ, jsLogQ (x ^ n) ≤ (n : ℚ) * jsLogQ x := by
  intro x hx n
  have hx0 : 0 < x := lt_of_lt_of_le one_pos hx
  have hp : (0 : ℚ) < x ^ n := pow_pos hx0 n
  have hinv0 : 0 ≤ x⁻¹ := le_of_lt (inv_pos.mpr hx0)
  have hinv1 : x⁻¹ ≤ 1 := inv_le_one_of_one_le₀ hx
  have key := one_sub_pow_le x⁻¹ hinv0 hinv1 n
  have e1 : jsLogQ (x ^ n) = 1 - x⁻¹ ^ n := by
    unfold jsLogQ
    rw [inv_pow]
    field_simp
  have e2 : jsLogQ x = 1 - x⁻¹ := by
    unfold jsLogQ
    field_simp
  rw [e1, e2]
  exact key

theorem jsPowQ_natCast (x : ℚ) (k : ℕ) : jsPowQ x (k : ℚ) = x ^ k := by
  unfold jsPowQ
  rw [if_pos (Rat.den_natCast k)]
  have : ((k : ℚ).num : ℤ) = (k : ℤ) := Rat.num_natCast k
  rw [this, zpow_natCast]

theorem monthIdx_mkDateNorm (y m d : Int) : monthIdx (mkDateNorm y m d) = 12 * y + m := by
  unfold monthIdx mkDateNorm
  simp only
  omega

theorem day_mkDateNorm (y m d : Int) : (mkDateNorm y m d).day = d := rfl

theorem monthIdx_addMonths (d : JsDate) (k : Int) :
    monthIdx (addMonths d k) = monthIdx d + k := by
  unfold addMonths
  rw [monthIdx_mkDateNorm]
  unfold monthIdx
  ring

theorem day_addMonths (d : JsDate) (k : Int) : (addMonths d k).day = d.day := rfl

theorem monthIdx_contribStart (d : JsDate) :
    monthIdx (getContributionStartDate d) = monthIdx d + 1 := by
  unfold getContributionStartDate
  rw [monthIdx_mkDateNorm]
  unfold monthIdx
  ring

theorem day_contribStart (d : JsDate) : (getContributionStartDate d).day = 1 := rfl

theorem dateLt_firstOfMonth_iff (now s : JsDate) (hday : 1 ≤ now.day) (hsd : s.day = 1) :
    dateLt ⟨now.year, now.month, 1⟩ s ↔ dateLt now s := by
  unfold dateLt monthIdx
  dsimp only
  omega

theorem dateLe_of_le (a b : JsDate) (h1 : monthIdx a ≤ monthIdx b) (h2 : a.day ≤ b.day) :
    dateLe a b := by
  rcases lt_or_eq_of_le h1 with h | h
  · exact Or.inl h
  · exact Or.inr ⟨h, h2⟩

theorem dateLe_refl (a : JsDate) : dateLe a a := Or.inr ⟨rfl, le_refl _⟩

theorem one_le_monthlyFactor {r : ℚ} (hr : 0 ≤ r) (k : ℕ) : (1 : ℚ) ≤ (1 + r) ^ k :=
  one_le_pow₀ (by linarith)

/-- C5: the contribution-period count equals the month-index difference
plus one (the target month always counts), floored at 1; and for a goal
created 2024-01-15 the contribution start date is 2024-02-01 and the
period count to the target date 2025-01-01 is 12. -/
theorem contributionPeriods_formula :
    (∀ s t : JsDate, 1 ≤ t.day →
      calculateContributionPeriods s t =
        max 1 ((t.year - s.year) * 12 + (t.month - s.month) + 1)) ∧
    getContributionStartDate ⟨2024, 0, 15⟩ = ⟨2024, 1, 1⟩ ∧
    calculateContributionPeriods ⟨2024, 1, 1⟩ ⟨2025, 0, 1⟩ = 12 := by
  refine ⟨?_, by decide, by decide⟩
  intro s t h
  unfold calculateContributionPeriods
  simp only [if_pos h]

/-- Witness for C5 at a concrete pair of dates. -/
theorem contributionPeriods_formula_witness :
    calculateContributionPeriods ⟨2023, 7, 1⟩ ⟨2024, 2, 14⟩ =
      max 1 ((2024 - 2023) * 12 + (2 - 7) + 1) :=
  contributionPeriods_formula.1 ⟨2023, 7, 1⟩ ⟨2024, 2, 14⟩ (by decide)

/-- C10: the progress percentage is 0 for a non-positive target, equals
the clamped ratio for a positive target, and always lies between 0 and
100. -/
theorem progressPercentage_guard (c t : ℚ) :
    (t ≤ 0 → calculateProgressPercentage c t = 0) ∧
    (0 < t → calculateProgressPercentage c t = min 100 (max 0 (c / t * 100))) ∧
    0 ≤ calculateProgressPercentage c t ∧ calculateProgressPercentage c t ≤ 100 := by
  unfold calculateProgressPercentage
  by_cases h : t ≤ 0
  · simp [h]
  · rw [if_neg h]
    refine ⟨fun hc => absurd hc h, fun _ => rfl, ?_, min_le_left _ _⟩
    exact le_min (by norm_num) (le_max_left 0 _)

/-- Witness for C10 at a concrete positive target. -/
theorem progressPercentage_guard_witness :
    calculateProgressPercentage 50 200 = min 100 (max 0 (50 / 200 * 100)) :=
  (progressPercentage_guard 50 200).2.1 (by norm_num)

/-- C3: for a goal whose initial amount already covers the positive
target, the monthly payment is exactly 0 for every rate in the unit range
and every target date, and the completion date is the current date. -/
theorem alreadyFunded_invariant (jsPow : ℚ → ℚ → ℚ) (jsLog : ℚ → ℚ)
    (now targetDate createdAt : JsDate)
    (targetAmount initialAmount pledge annualRate : ℚ)
    (hP : ∀ x : ℚ, ∀ k : ℕ, jsPow x (k : ℚ) = x ^ k)
    (ht : 0 < targetAmount) (hge : targetAmount ≤ initialAmount)
    (hr0 : 0 ≤ annualRate) (hr1 : annualRate ≤ 100) :
    calculateMonthlyPayment jsPow targetAmount initialAmount targetDate createdAt annualRate = 0 ∧
    calculateCompletionDate jsLog now targetAmount initialAmount pledge annualRate createdAt
      = now := by
  constructor
  · unfold calculateMonthlyPayment
    have hpay :
        calculatePayment jsPow targetAmount initialAmount (annualRate / 100 / 12)
          (calculateContributionPeriods (getContributionStartDate createdAt) targetDate)
          = 0 := by
      set n := calculateContributionPeriods (getContributionStartDate createdAt) targetDate
        with hn
      have hn1 : 1 ≤ n := le_max_left 1 _
      have hi0 : 0 ≤ initialAmount := le_trans (le_of_lt ht) hge
      have hr : 0 ≤ annualRate / 100 / 12 := by positivity
      have hn0 : (0 : ℤ) ≤ n := by omega
      have hcast : ((n.toNat : ℕ) : ℚ) = ((n : ℤ) : ℚ) := by
        exact_mod_cast congrArg (fun z : ℤ => (z : ℚ)) (Int.toNat_of_nonneg hn0)
      have hfv : initialAmount ≤
          calculateFutureValue jsPow initialAmount (annualRate / 100 / 12) (n : ℚ) := by
        unfold calculateFutureValue
        by_cases h0 : annualRate / 100 / 12 = 0
        · simp [h0]
        · rw [if_neg h0, ← hcast, hP]
          exact le_mul_of_one_le_right hi0 (one_le_monthlyFactor hr n.toNat)
      unfold calculatePayment
      rw [if_neg (by omega)]
      dsimp only
      rw [if_pos (by linarith)]
    dsimp only
    rw [hpay]
    norm_num
  · unfold calculateCompletionDate
    simp [hge]

/-- Witness for C3 at a concrete already-funded goal. -/
theorem alreadyFunded_invariant_witness :
    calculateMonthlyPayment jsPowQ 100 250 ⟨2025, 0, 1⟩ ⟨2024, 0, 15⟩ 5 = 0 ∧
    calculateCompletionDate jsLogQ ⟨2024, 5, 5⟩ 100 250 40 5 ⟨2024, 0, 15⟩ = ⟨2024, 5, 5⟩ :=
  alreadyFunded_invariant jsPowQ jsLogQ ⟨2024, 5, 5⟩ ⟨2025, 0, 1⟩ ⟨2024, 0, 15⟩
    100 250 40 5 jsPowQ_natCast (by norm_num) (by norm_num) (by norm_num) (by norm_num)

/-- C4: for a goal that is not already funded, whenever the no-pledge
no-growth guard fires, or the computed period count is infinite or above
the 1200-month cap, the completion date is the far-future sentinel 36500
days from now; the function is total by construction. -/
theorem unreachable_sentinel (jsLog : ℚ → ℚ) (now createdAt : JsDate)
    (targetAmount initialAmount monthlyContribution annualRate : ℚ)
    (hlt : initialAmount < targetAmount)
    (h : (monthlyContribution ≤ 0 ∧ annualRate / 100 / 12 = 0) ∨
        calculatePeriods jsLog (annualRate / 100 / 12) monthlyContribution initialAmount
          targetAmount = none ∨
        ∃ q, calculatePeriods jsLog (annualRate / 100 / 12) monthlyContribution initialAmount
          targetAmount = some q ∧ 1200 < q) :
    calculateCompletionDate jsLog now targetAmount initialAmount monthlyContribution
      annualRate createdAt = sentinelDate now := by
  unfold calculateCompletionDate
  dsimp only
  rw [if_neg (not_le.mpr hlt)]
  by_cases hg : monthlyContribution ≤ 0 ∧ annualRate / 100 / 12 = 0
  · rw [if_pos hg]
  · rw [if_neg hg]
    rcases h with h | h | ⟨q, hq, hq2⟩
    · exact absurd h hg
    · rw [h]
    · rw [hq]
      simp only [if_pos hq2]

/-- Witness for C4 at the end-to-end scenario of the spec: zero pledge,
zero rate, 100 initial against a 10000 target. -/
theorem unreachable_sentinel_witness :
    calculateCompletionDate jsLogQ ⟨2024, 0, 15⟩ 10000 100 0 0 ⟨2024, 0, 15⟩ =
      sentinelDate ⟨2024, 0, 15⟩ :=
  unreachable_sentinel jsLogQ ⟨2024, 0, 15⟩ ⟨2024, 0, 15⟩ 10000 100 0 0 (by norm_num)
    (Or.inl ⟨by norm_num, by norm_num⟩)

/-- C9: calculateGoalMetrics is total, and whenever its try block throws
it returns the input goal with zero progress, on-track status, and the
stored target date as the projected completion date. -/
theorem goalMetrics_fallback (jsLog : ℚ → ℚ) (now : JsDate) (g : Goal) (e : Unit)
    (h : goalMetricsTry jsLog now g = .error e) :
    calculateGoalMetrics jsLog now g = ⟨g, 0, .onTrack, g.target_date⟩ := by
  unfold calculateGoalMetrics
  rw [h]

/-- Witness for C9 at a concrete goal whose created_at does not parse. -/
theorem goalMetrics_fallback_witness :
    calculateGoalMetrics jsLogQ ⟨2024, 2, 10⟩
        ⟨some 50, 1000, some 0, 100, some 5, none, ⟨2025, 0, 1⟩⟩ =
      ⟨⟨some 50, 1000, some 0, 100, some 5, none, ⟨2025, 0, 1⟩⟩, 0, .onTrack, ⟨2025, 0, 1⟩⟩ :=
  goalMetrics_fallback jsLogQ ⟨2024, 2, 10⟩
    ⟨some 50, 1000, some 0, 100, some 5, none, ⟨2025, 0, 1⟩⟩ () rfl

/-- C2 counterexample: a goal sitting exactly at expectedTotal plus
tolerance is classified ahead by the source (non-strict comparison),
where the claim predicts on-track.  Goal: created 2024-01-15, pledge 100,
initial 0, evaluated 2024-03-10, so expectedTotal is 200, the tolerance is
10, and the current total is exactly 210. -/
theorem status_boundary_counterexample :
    (210 : ℚ) = 0 + 100 * 2 + 100 * (1 / 10) ∧
    calcOnTrackStatus ⟨2024, 2, 10⟩ ⟨2024, 0, 15⟩
      ⟨some 210, 1000, some 0, 100, some 0, some ⟨2024, 0, 15⟩, ⟨2025, 0, 1⟩⟩ =
      .ahead := by
  constructor
  · norm_num
  · norm_num [calcOnTrackStatus, getContributionStartDate, mkDateNorm, dateLt, monthIdx]

/-- C2 amended: the source classifier agrees everywhere with the
claim-side classifier once the ahead comparison is read as non-strict
(currentTotal at least expectedTotal plus tolerance), for any evaluation
date with a valid day of month. -/
theorem status_classifier_amended (now created : JsDate) (g : Goal)
    (hday : 1 ≤ now.day) :
    calcOnTrackStatus now created g = statusPerSpecAmended now created g := by
  unfold calcOnTrackStatus statusPerSpecAmended
  dsimp only
  by_cases h1 : g.target_amount ≤ g.current_total.getD 0
  · rw [if_pos h1, if_pos h1]
  · rw [if_neg h1, if_neg h1]
    have hlt_iff : dateLt (⟨now.year, now.month, 1⟩ : JsDate) (getContributionStartDate created)
        ↔ dateLt now (getContributionStartDate created) :=
      dateLt_firstOfMonth_iff now (getContributionStartDate created) hday
        (day_contribStart created)
    by_cases h2 : dateLt now (getContributionStartDate created)
    · rw [if_pos (hlt_iff.mpr h2), if_pos h2]
    · rw [if_neg (fun hh => h2 (hlt_iff.mp hh)), if_neg h2]
      have hge : monthIdx (getContributionStartDate created) ≤ monthIdx now := by
        by_contra hc
        exact h2 (Or.inl (not_le.mp hc))
      have hmax : max 0 ((now.year - (getContributionStartDate created).year) * 12 +
          (now.month - (getContributionStartDate created).month) + 1) =
          (now.year - (getContributionStartDate created).year) * 12 +
          (now.month - (getContributionStartDate created).month) + 1 :=
        max_eq_right (by unfold monthIdx at hge; omega)
      rw [hmax]

/-- Witness for C2 amended at a concrete behind goal. -/
theorem status_classifier_amended_witness :
    calcOnTrackStatus ⟨2024, 5, 20⟩ ⟨2024, 0, 15⟩
        ⟨some 120, 5000, some 0, 100, some 0, some ⟨2024, 0, 15⟩, ⟨2025, 0, 1⟩⟩ =
      statusPerSpecAmended ⟨2024, 5, 20⟩ ⟨2024, 0, 15⟩
        ⟨some 120, 5000, some 0, 100, some 0, some ⟨2024, 0, 15⟩, ⟨2025, 0, 1⟩⟩ :=
  status_classifier_amended ⟨2024, 5, 20⟩ ⟨2024, 0, 15⟩
    ⟨some 120, 5000, some 0, 100, some 0, some ⟨2024, 0, 15⟩, ⟨2025, 0, 1⟩⟩ (by decide)

/-- C7 counterexample: the projected total is rounded to the cent, so the
claimed exact equality with linear accumulation fails for a sub-cent
initial amount: with rate 0, pledge 0 and initial amount 1/1000 the
function returns 0, not 1/1000. -/
theorem zeroRate_counterexample :
    calculateProjectedTotal jsPowQ (1 / 1000) 0 ⟨2025, 0, 1⟩ ⟨2024, 0, 15⟩ 0 ≠
      1 / 1000 + 0 * ((calculateContributionPeriods
        (getContributionStartDate ⟨2024, 0, 15⟩) ⟨2025, 0, 1⟩ : ℤ) : ℚ) := by
  norm_num [calculateProjectedTotal, calculateFutureValue, calculateAnnuityFutureValue,
    calculateContributionPeriods, getContributionStartDate, mkDateNorm, jsRound]

/-- C7 amended: at zero annual rate the projected total equals the simple
linear accumulation initialAmount plus monthlyPledge times the
contribution-period count, rounded to the nearest cent; no compounding is
applied. -/
theorem zeroRate_consistency (jsPow : ℚ → ℚ → ℚ) (initialAmount monthlyContribution : ℚ)
    (targetDate goalCreatedAt : JsDate) :
    calculateProjectedTotal jsPow initialAmount monthlyContribution targetDate goalCreatedAt 0 =
      jsRound ((initialAmount + monthlyContribution *
        ((calculateContributionPeriods (getContributionStartDate goalCreatedAt) targetDate
          : ℤ) : ℚ)) * 100) / 100 := by
  have h0 : (0 : ℚ) / 100 / 12 = 0 := by norm_num
  unfold calculateProjectedTotal calculateFutureValue calculateAnnuityFutureValue
  rw [h0]
  simp

/-- C8 counterexample: calculateCompletionDate reads the ambient clock;
with identical explicit arguments (an already-funded goal) two calls at
different instants return the two distinct instants. -/
theorem purity_counterexample :
    calculateCompletionDate jsLogQ ⟨2024, 0, 10⟩ 100 100 0 0 ⟨2024, 0, 15⟩ ≠
      calculateCompletionDate jsLogQ ⟨2024, 0, 11⟩ 100 100 0 0 ⟨2024, 0, 15⟩ := by
  decide

/-- C8 amended: the projection is deterministic in its arguments together
with the clock reading, and on the normal projection branch (not already
funded, not the unreachable sentinel) the result is independent of the
clock instant. -/
theorem completion_clock_independent (jsLog : ℚ → ℚ) (now1 now2 createdAt : JsDate)
    (targetAmount initialAmount monthlyContribution annualRate : ℚ)
    (h1 : initialAmount < targetAmount)
    (h2 : ¬(monthlyContribution ≤ 0 ∧ annualRate / 100 / 12 = 0))
    (h3 : ∃ q, calculatePeriods jsLog (annualRate / 100 / 12) monthlyContribution
      initialAmount targetAmount = some q ∧ q ≤ 1200) :
    calculateCompletionDate jsLog now1 targetAmount initialAmount monthlyContribution
      annualRate createdAt =
    calculateCompletionDate jsLog now2 targetAmount initialAmount monthlyContribution
      annualRate createdAt := by
  obtain ⟨q, hq, hle⟩ := h3
  unfold calculateCompletionDate
  dsimp only
  simp only [if_neg (not_le.mpr h1), if_neg h2, hq, if_neg (not_lt.mpr hle)]

/-- Witness for C8 amended: a normal-branch goal projected at two
different clock instants. -/
theorem completion_clock_independent_witness :
    calculateCompletionDate jsLogQ ⟨2024, 0, 10⟩ 12 0 1 0 ⟨2024, 0, 15⟩ =
      calculateCompletionDate jsLogQ ⟨2024, 5, 5⟩ 12 0 1 0 ⟨2024, 0, 15⟩ :=
  completion_clock_independent jsLogQ ⟨2024, 0, 10⟩ ⟨2024, 5, 5⟩ ⟨2024, 0, 15⟩ 12 0 1 0
    (by norm_num) (by norm_num) ⟨12, by norm_num [calculatePeriods], by norm_num⟩

theorem jsRound_mono {x y : ℚ} (h : x ≤ y) : jsRound x ≤ jsRound y := by
  unfold jsRound
  exact_mod_cast Int.floor_le_floor (by linarith)

theorem nperVal_le_nat (jsLog : ℚ → ℚ)
    (L1 : ∀ a b : ℚ, 0 < a → a ≤ b → jsLog a ≤ jsLog b)
    (L2 : ∀ x : ℚ, 1 < x → 0 < jsLog x)
    (L3 : ∀ x : ℚ, 1 ≤ x → ∀ n : ℕ, jsLog (x ^ n) ≤ (n : ℚ) * jsLog x)
    {A r : ℚ} (N : ℕ) (hA : 0 < A) (hr : 0 < r) (hle : A ≤ (1 + r) ^ N) :
    jsLog A / jsLog (1 + r) ≤ (N : ℚ) := by
  have h1r : (1 : ℚ) < 1 + r := by linarith
  have hpos := L2 _ h1r
  rw [div_le_iff₀ hpos]
  calc jsLog A ≤ jsLog ((1 + r) ^ N) := L1 _ _ hA hle
    _ ≤ (N : ℚ) * jsLog (1 + r) := L3 _ (le_of_lt h1r) N

theorem nper_div_mono (jsLog : ℚ → ℚ)
    (L1 : ∀ a b : ℚ, 0 < a → a ≤ b → jsLog a ≤ jsLog b)
    (L2 : ∀ x : ℚ, 1 < x → 0 < jsLog x)
    {A B r : ℚ} (hA : 0 < A) (hAB : A ≤ B) (hr : 0 < r) :
    jsLog A / jsLog (1 + r) ≤ jsLog B / jsLog (1 + r) := by
  have hpos := L2 (1 + r) (by linarith)
  rw [div_le_div_iff₀ hpos hpos]
  exact mul_le_mul_of_nonneg_right (L1 _ _ hA hAB) (le_of_lt hpos)

theorem calculatePeriods_antitone (jsLog : ℚ → ℚ)
    (L1 : ∀ a b : ℚ, 0 < a → a ≤ b → jsLog a ≤ jsLog b)
    (L2 : ∀ x : ℚ, 1 < x → 0 < jsLog x)
    {r p1 p2 PV FV : ℚ} (hPV : 0 ≤ PV) (hlt : PV < FV) (hr : 0 ≤ r) (hp : p1 ≤ p2)
    {q1 : ℚ} (h1 : calculatePeriods jsLog r p1 PV FV = some q1) :
    ∃ q2, calculatePeriods jsLog r p2 PV FV = some q2 ∧ q2 ≤ q1 := by
  unfold calculatePeriods at h1 ⊢
  by_cases hp1 : p1 ≤ 0
  · rw [if_pos hp1] at h1
    by_cases hr0 : r = 0
    · rw [if_pos hr0] at h1
      exact absurd h1 (by simp)
    · rw [if_neg hr0] at h1
      have hrpos : 0 < r := lt_of_le_of_ne hr (Ne.symm hr0)
      by_cases hPV0 : PV ≤ 0
      · rw [if_pos hPV0] at h1
        exact absurd h1 (by simp)
      · rw [if_neg hPV0] at h1
        have hPVpos : 0 < PV := not_le.mp hPV0
        have hq1 : q1 = jsLog (FV / PV) / jsLog (1 + r) := (Option.some.inj h1).symm
        by_cases hp2 : p2 ≤ 0
        · rw [if_pos hp2, if_neg hr0, if_neg hPV0]
          exact ⟨_, rfl, le_of_eq hq1.symm⟩
        · rw [if_neg hp2, if_neg hr0]
          dsimp only
          have hp2pos : 0 < p2 := not_le.mp hp2
          have hFV : 0 < FV := lt_trans hPVpos hlt
          have hden : 0 < p2 + PV * r :=
            add_pos_of_pos_of_nonneg hp2pos (mul_nonneg hPV hr)
          have hnum : 0 < p2 + FV * r :=
            add_pos hp2pos (mul_pos hFV hrpos)
          have hargpos : 0 < (p2 + FV * r) / (p2 + PV * r) := div_pos hnum hden
          rw [if_neg (not_le.mpr hargpos)]
          refine ⟨_, rfl, ?_⟩
          rw [hq1]
          refine nper_div_mono jsLog L1 L2 hargpos ?_ hrpos
          rw [div_le_div_iff₀ hden hPVpos]
          nlinarith
  · rw [if_neg hp1] at h1
    have hp1pos : 0 < p1 := not_le.mp hp1
    have hp2pos : 0 < p2 := lt_of_lt_of_le hp1pos hp
    rw [if_neg (not_le.mpr hp2pos)]
    by_cases hr0 : r = 0
    · rw [if_pos hr0] at h1 ⊢
      have hq1 : q1 = (FV - PV) / p1 := (Option.some.inj h1).symm
      refine ⟨_, rfl, ?_⟩
      rw [hq1, div_le_div_iff₀ hp2pos hp1pos]
      nlinarith
    · rw [if_neg hr0] at h1 ⊢
      dsimp only at h1 ⊢
      have hrpos : 0 < r := lt_of_le_of_ne hr (Ne.symm hr0)
      have hFV : 0 < FV := lt_of_le_of_lt hPV hlt
      have hden1 : 0 < p1 + PV * r :=
        add_pos_of_pos_of_nonneg hp1pos (mul_nonneg hPV hr)
      have hden2 : 0 < p2 + PV * r :=
        add_pos_of_pos_of_nonneg hp2pos (mul_nonneg hPV hr)
      have hnum2 : 0 < p2 + FV * r := add_pos hp2pos (mul_pos hFV hrpos)
      have hargpos2 : 0 < (p2 + FV * r) / (p2 + PV * r) := div_pos hnum2 hden2
      rw [if_neg (not_le.mpr hargpos2)]
      by_cases hn1 : (p1 + FV * r) / (p1 + PV * r) ≤ 0
      · rw [if_pos hn1] at h1
        exact absurd h1 (by simp)
      · rw [if_neg hn1] at h1
        have hq1v : q1 = jsLog ((p1 + FV * r) / (p1 + PV * r)) / jsLog (1 + r) :=
          (Option.some.inj h1).symm
        refine ⟨_, rfl, ?_⟩
        rw [hq1v]
        refine nper_div_mono jsLog L1 L2 hargpos2 ?_ hrpos
        rw [div_le_div_iff₀ hden2 hden1]
        nlinarith [mul_nonneg (mul_nonneg hr (sub_nonneg.mpr hp)) (sub_nonneg.mpr (le_of_lt hlt))]

theorem completion_eq_of_periods (jsLog : ℚ → ℚ) (now createdAt : JsDate)
    (targetAmount initialAmount p annualRate : ℚ) {q : ℚ}
    (hlt : initialAmount < targetAmount)
    (hguard : ¬(p ≤ 0 ∧ annualRate / 100 / 12 = 0))
    (hper : calculatePeriods jsLog (annualRate / 100 / 12) p initialAmount targetAmount = some q)
    (hq1200 : q ≤ 1200) :
    calculateCompletionDate jsLog now targetAmount initialAmount p annualRate createdAt =
      addMonths (getContributionStartDate createdAt) ⌈q⌉ := by
  unfold calculateCompletionDate
  dsimp only
  simp only [if_neg (not_le.mpr hlt), if_neg hguard, hper, if_neg (not_lt.mpr hq1200)]

/-- C6 counterexample: monotonicity of the completion date in the pledge
fails at the 1200-month cap.  With target 1200, initial 0, zero rate and
goal created 2024-01-15 (clock 2024-01-15): pledge 999/1000 needs more
than 1200 periods and maps to the sentinel 2123-12-22, while the larger
pledge 1 needs exactly 1200 periods and maps to 2124-02-01, a later
date. -/
theorem pledgeMonotonic_counterexample :
    (999 / 1000 : ℚ) ≤ 1 ∧
    ¬ dateLe (calculateCompletionDate jsLogQ ⟨2024, 0, 15⟩ 1200 0 1 0 ⟨2024, 0, 15⟩)
      (calculateCompletionDate jsLogQ ⟨2024, 0, 15⟩ 1200 0 (999 / 1000) 0 ⟨2024, 0, 15⟩) := by
  constructor
  · norm_num
  · have h1 : calculateCompletionDate jsLogQ ⟨2024, 0, 15⟩ 1200 0 (999 / 1000) 0
        ⟨2024, 0, 15⟩ = sentinelDate ⟨2024, 0, 15⟩ := by
      norm_num [calculateCompletionDate, calculatePeriods]
    have h2 : calculateCompletionDate jsLogQ ⟨2024, 0, 15⟩ 1200 0 1 0
        ⟨2024, 0, 15⟩ = addMonths (getContributionStartDate ⟨2024, 0, 15⟩) 1200 := by
      norm_num [calculateCompletionDate, calculatePeriods]
    rw [h1, h2]
    decide

/-- C6 amended: holding all other parameters fixed, for pledges p1 at most
p2, the completion date with p2 is never later than with p1 provided the
smaller pledge itself lands in the normal projection branch (goal not
already funded, not the zero-pledge zero-rate guard, period count finite
and at most the 1200-month cap); and the projected total at a fixed
target date with p2 is never smaller than with p1, unconditionally. -/
theorem pledgeMonotonic_amended (jsLog : ℚ → ℚ) (jsPow : ℚ → ℚ → ℚ)
    (now targetDate createdAt : JsDate)
    (targetAmount initialAmount p1 p2 annualRate : ℚ)
    (L1 : ∀ a b : ℚ, 0 < a → a ≤ b → jsLog a ≤ jsLog b)
    (L2 : ∀ x : ℚ, 1 < x → 0 < jsLog x)
    (HP : ∀ x : ℚ, ∀ k : ℕ, jsPow x (k : ℚ) = x ^ k)
    (hi : 0 ≤ initialAmount) (hr : 0 ≤ annualRate) (hp : p1 ≤ p2) :
    ((initialAmount < targetAmount →
      ¬(p1 ≤ 0 ∧ annualRate / 100 / 12 = 0) →
      ∀ q1, calculatePeriods jsLog (annualRate / 100 / 12) p1 initialAmount targetAmount
        = some q1 → q1 ≤ 1200 →
      dateLe (calculateCompletionDate jsLog now targetAmount initialAmount p2 annualRate createdAt)
        (calculateCompletionDate jsLog now targetAmount initialAmount p1 annualRate createdAt)) ∧
    calculateProjectedTotal jsPow initialAmount p1 targetDate createdAt annualRate ≤
      calculateProjectedTotal jsPow initialAmount p2 targetDate createdAt annualRate) := by
  have hrm : 0 ≤ annualRate / 100 / 12 := by positivity
  constructor
  · intro hlt hguard1 q1 hq1 hcap1
    obtain ⟨q2, hq2, hle⟩ :=
      calculatePeriods_antitone jsLog L1 L2 hi hlt hrm hp hq1
    have hguard2 : ¬(p2 ≤ 0 ∧ annualRate / 100 / 12 = 0) := by
      rintro ⟨h2a, h2b⟩
      exact hguard1 ⟨le_trans hp h2a, h2b⟩
    rw [completion_eq_of_periods jsLog now createdAt targetAmount initialAmount p2 annualRate
        hlt hguard2 hq2 (le_trans hle hcap1),
      completion_eq_of_periods jsLog now createdAt targetAmount initialAmount p1 annualRate
        hlt hguard1 hq1 hcap1]
    refine dateLe_of_le _ _ ?_ ?_
    · rw [monthIdx_addMonths, monthIdx_addMonths]
      have := Int.ceil_mono hle
      omega
    · rw [day_addMonths, day_addMonths]
  · unfold calculateProjectedTotal
    dsimp only
    have hn1 : (1 : ℤ) ≤ calculateContributionPeriods
        (getContributionStartDate createdAt) targetDate := le_max_left 1 _
    have hnQ : (0 : ℚ) ≤ ((calculateContributionPeriods
        (getContributionStartDate createdAt) targetDate : ℤ) : ℚ) := by
      exact_mod_cast (by omega : (0 : ℤ) ≤ calculateContributionPeriods
        (getContributionStartDate createdAt) targetDate)
    have hann : calculateAnnuityFutureValue jsPow p1 (annualRate / 100 / 12)
        ((calculateContributionPeriods (getContributionStartDate createdAt) targetDate : ℤ) : ℚ) ≤
        calculateAnnuityFutureValue jsPow p2 (annualRate / 100 / 12)
        ((calculateContributionPeriods (getContributionStartDate createdAt) targetDate : ℤ) : ℚ) := by
      unfold calculateAnnuityFutureValue
      by_cases hz : annualRate / 100 / 12 = 0
      · rw [if_pos hz, if_pos hz]
        exact mul_le_mul_of_nonneg_right hp hnQ
      · rw [if_neg hz, if_neg hz]
        refine mul_le_mul_of_nonneg_right hp ?_
        have hrpos : 0 < annualRate / 100 / 12 := lt_of_le_of_ne hrm (Ne.symm hz)
        have hcast : (((calculateContributionPeriods
            (getContributionStartDate createdAt) targetDate).toNat : ℕ) : ℚ) =
            ((calculateContributionPeriods
              (getContributionStartDate createdAt) targetDate : ℤ) : ℚ) := by
          exact_mod_cast congrArg (fun z : ℤ => (z : ℚ))
            (Int.toNat_of_nonneg (by omega : (0 : ℤ) ≤ calculateContributionPeriods
              (getContributionStartDate createdAt) targetDate))
        rw [← hcast, HP]
        have := one_le_monthlyFactor hrm (calculateContributionPeriods
          (getContributionStartDate createdAt) targetDate).toNat
        have hnum : (0 : ℚ) ≤ (1 + annualRate / 100 / 12) ^ (calculateContributionPeriods
          (getContributionStartDate createdAt) targetDate).toNat - 1 := by linarith
        positivity
    gcongr
    exact jsRound_mono (by linarith)

/-- Witness for C6 amended at a concrete zero-rate goal with pledges 1
and 2. -/
theorem pledgeMonotonic_amended_witness :
    dateLe (calculateCompletionDate jsLogQ ⟨2024, 0, 10⟩ 12 0 2 0 ⟨2024, 0, 15⟩)
        (calculateCompletionDate jsLogQ ⟨2024, 0, 10⟩ 12 0 1 0 ⟨2024, 0, 15⟩) ∧
      calculateProjectedTotal jsPowQ 0 1 ⟨2025, 0, 1⟩ ⟨2024, 0, 15⟩ 0 ≤
        calculateProjectedTotal jsPowQ 0 2 ⟨2025, 0, 1⟩ ⟨2024, 0, 15⟩ 0 := by
  have h := pledgeMonotonic_amended jsLogQ jsPowQ ⟨2024, 0, 10⟩ ⟨2025, 0, 1⟩ ⟨2024, 0, 15⟩
    12 0 1 2 0 jsLogQ_mono jsLogQ_pos jsPowQ_natCast (by norm_num) (by norm_num) (by norm_num)
  exact ⟨h.1 (by norm_num) (by norm_num) 12 (by norm_num [calculatePeriods]) (by norm_num), h.2⟩

theorem payment_periods_bound (jsLog : ℚ → ℚ) (jsPow : ℚ → ℚ → ℚ)
    (HP : ∀ x : ℚ, ∀ k : ℕ, jsPow x (k : ℚ) = x ^ k)
    (L1 : ∀ a b : ℚ, 0 < a → a ≤ b → jsLog a ≤ jsLog b)
    (L2 : ∀ x : ℚ, 1 < x → 0 < jsLog x)
    (L3 : ∀ x : ℚ, 1 ≤ x → ∀ n : ℕ, jsLog (x ^ n) ≤ (n : ℚ) * jsLog x)
    {target initial r p : ℚ} {n : ℤ}
    (ht : 0 < target) (hi : 0 ≤ initial) (hlt : initial < target)
    (hrm : 0 ≤ r) (hn1 : 1 ≤ n)
    (hple : calculatePayment jsPow target initial r n ≤ p) (hp0 : 0 ≤ p) :
    ¬(p ≤ 0 ∧ r = 0) ∧
    ∃ q, calculatePeriods jsLog r p initial target = some q ∧ q ≤ ((n : ℤ) : ℚ) := by
  have hn0 : (0 : ℤ) ≤ n := by omega
  set N := n.toNat with hN
  have hNcast : ((N : ℕ) : ℚ) = ((n : ℤ) : ℚ) := by
    exact_mod_cast congrArg (fun z : ℤ => (z : ℚ)) (Int.toNat_of_nonneg hn0)
  have hP1 : (1 : ℚ) ≤ (1 + r) ^ N := one_le_monthlyFactor hrm N
  have hnQpos : (0 : ℚ) < ((n : ℤ) : ℚ) := by exact_mod_cast (by omega : (0 : ℤ) < n)
  have hfveq : calculateFutureValue jsPow initial r ((n : ℤ) : ℚ) =
      if r = 0 then initial else initial * (1 + r) ^ N := by
    unfold calculateFutureValue
    by_cases hz : r = 0
    · rw [if_pos hz, if_pos hz]
    · rw [if_neg hz, if_neg hz, ← hNcast, HP]
  by_cases hrz : r = 0
  · have hpay : calculatePayment jsPow target initial r n =
        (target - initial) / ((n : ℤ) : ℚ) := by
      unfold calculatePayment
      rw [if_neg (by omega : ¬ n ≤ 0)]
      dsimp only
      rw [hfveq, if_pos hrz, if_neg (by linarith : ¬ target - initial ≤ 0), if_pos hrz]
    have hpaypos : 0 < calculatePayment jsPow target initial r n := by
      rw [hpay]
      exact div_pos (by linarith) hnQpos
    have hppos : 0 < p := lt_of_lt_of_le hpaypos hple
    refine ⟨fun hx => absurd hppos (not_lt.mpr hx.1), (target - initial) / p, ?_, ?_⟩
    · unfold calculatePeriods
      rw [if_neg (not_le.mpr hppos), if_pos hrz]
    · rw [div_le_iff₀ hppos]
      have h2 : target - initial = ((n : ℤ) : ℚ) * calculatePayment jsPow target initial r n := by
        rw [hpay]
        field_simp
      linarith [mul_le_mul_of_nonneg_left hple (le_of_lt hnQpos)]
  · have hrpos : 0 < r := lt_of_le_of_ne hrm (Ne.symm hrz)
    have hguard : ¬(p ≤ 0 ∧ r = 0) := fun hx => hrz hx.2
    refine ⟨hguard, ?_⟩
    by_cases hrem : target - initial * (1 + r) ^ N ≤ 0
    · have hipos : 0 < initial := by
        rcases lt_or_eq_of_le hi with h | h
        · exact h
        · exfalso
          rw [← h, zero_mul] at hrem
          linarith
      have hratio_pos : 0 < target / initial := div_pos ht hipos
      have hratio_le : target / initial ≤ (1 + r) ^ N := by
        rw [div_le_iff₀ hipos]
        nlinarith
      by_cases hple0 : p ≤ 0
      · refine ⟨jsLog (target / initial) / jsLog (1 + r), ?_, ?_⟩
        · unfold calculatePeriods
          rw [if_pos hple0, if_neg hrz, if_neg (not_le.mpr hipos)]
        · rw [← hNcast]
          exact nperVal_le_nat jsLog L1 L2 L3 N hratio_pos hrpos hratio_le
      · have hppos : 0 < p := not_le.mp hple0
        have hden : 0 < p + initial * r := add_pos_of_pos_of_nonneg hppos (mul_nonneg hi hrm)
        have hnum : 0 < p + target * r := add_pos hppos (mul_pos ht hrpos)
        have hargpos : 0 < (p + target * r) / (p + initial * r) := div_pos hnum hden
        have harg_le : (p + target * r) / (p + initial * r) ≤ (1 + r) ^ N := by
          rw [div_le_iff₀ hden]
          nlinarith [mul_le_mul_of_nonneg_right (by linarith : target ≤ initial * (1 + r) ^ N) hrm,
            mul_le_mul_of_nonneg_left hP1 (le_of_lt hppos)]
        refine ⟨jsLog ((p + target * r) / (p + initial * r)) / jsLog (1 + r), ?_, ?_⟩
        · unfold calculatePeriods
          rw [if_neg (not_le.mpr hppos), if_neg hrz]
          dsimp only
          rw [if_neg (not_le.mpr hargpos)]
        · rw [← hNcast]
          exact nperVal_le_nat jsLog L1 L2 L3 N hargpos hrpos harg_le
    · push_neg at hrem
      have hPgt1 : 1 < (1 + r) ^ N := by
        refine one_lt_pow₀ (by linarith) ?_
        omega
      have hfac : 0 < ((1 + r) ^ N - 1) / r := div_pos (by linarith) hrpos
      have hpayv : calculatePayment jsPow target initial r n =
          (target - initial * (1 + r) ^ N) / (((1 + r) ^ N - 1) / r) := by
        unfold calculatePayment
        rw [if_neg (by omega : ¬ n ≤ 0)]
        dsimp only
        rw [hfveq, if_neg hrz, if_neg (not_le.mpr hrem), if_neg hrz, ← hNcast, HP]
      have hpaypos : 0 < calculatePayment jsPow target initial r n := by
        rw [hpayv]
        exact div_pos (by linarith) hfac
      have hppos : 0 < p := lt_of_lt_of_le hpaypos hple
      have hden : 0 < p + initial * r := add_pos_of_pos_of_nonneg hppos (mul_nonneg hi hrm)
      have hnum : 0 < p + target * r := add_pos hppos (mul_pos ht hrpos)
      have hargpos : 0 < (p + target * r) / (p + initial * r) := div_pos hnum hden
      have hkey : (target - initial * (1 + r) ^ N) * r ≤ p * ((1 + r) ^ N - 1) := by
        have h1 : calculatePayment jsPow target initial r n * (((1 + r) ^ N - 1) / r) =
            target - initial * (1 + r) ^ N := by
          rw [hpayv]
          exact div_mul_cancel₀ _ (ne_of_gt hfac)
        have h2 : calculatePayment jsPow target initial r n * (((1 + r) ^ N - 1) / r) ≤
            p * (((1 + r) ^ N - 1) / r) :=
          mul_le_mul_of_nonneg_right hple (le_of_lt hfac)
        have h3 : p * (((1 + r) ^ N - 1) / r) * r = p * ((1 + r) ^ N - 1) := by
          field_simp
        calc (target - initial * (1 + r) ^ N) * r
            = calculatePayment jsPow target initial r n * (((1 + r) ^ N - 1) / r) * r := by
              rw [h1]
          _ ≤ p * (((1 + r) ^ N - 1) / r) * r := mul_le_mul_of_nonneg_right h2 hrm
          _ = p * ((1 + r) ^ N - 1) := h3
      have harg_le : (p + target * r) / (p + initial * r) ≤ (1 + r) ^ N := by
        rw [div_le_iff₀ hden]
        nlinarith [hkey]
      refine ⟨jsLog ((p + target * r) / (p + initial * r)) / jsLog (1 + r), ?_, ?_⟩
      · unfold calculatePeriods
        rw [if_neg (not_le.mpr hppos), if_neg hrz]
        dsimp only
        rw [if_neg (not_le.mpr hargpos)]
      · rw [← hNcast]
        exact nperVal_le_nat jsLog L1 L2 L3 N hargpos hrpos harg_le

/-- C1 counterexample: the round trip misses the target date.  Valid goal
with target 1200, initial 0, zero rate, created 2024-01-15, target date
2025-01-01: the required payment is 100, and feeding it back gives
completion date 2025-02-01, after the target date. -/
theorem roundTrip_counterexample :
    (0 : ℚ) < 1200 ∧ (0 : ℚ) ≤ 0 ∧ dateLt ⟨2024, 0, 15⟩ ⟨2025, 0, 1⟩ ∧
    ¬ dateLe
      (calculateCompletionDate jsLogQ ⟨2024, 0, 15⟩ 1200 0
        (calculateMonthlyPayment jsPowQ 1200 0 ⟨2025, 0, 1⟩ ⟨2024, 0, 15⟩ 0) 0 ⟨2024, 0, 15⟩)
      ⟨2025, 0, 1⟩ := by
  refine ⟨by norm_num, le_refl 0, by decide, ?_⟩
  have hpay : calculateMonthlyPayment jsPowQ 1200 0 ⟨2025, 0, 1⟩ ⟨2024, 0, 15⟩ 0 = 100 := by
    norm_num [calculateMonthlyPayment, calculatePayment, calculateFutureValue,
      calculateContributionPeriods, getContributionStartDate, mkDateNorm]
  rw [hpay]
  have hcd : calculateCompletionDate jsLogQ ⟨2024, 0, 15⟩ 1200 0 100 0 ⟨2024, 0, 15⟩ =
      addMonths (getContributionStartDate ⟨2024, 0, 15⟩) 12 := by
    norm_num [calculateCompletionDate, calculatePeriods]
  rw [hcd]
  decide

/-- C1 amended: for a valid goal that is not already funded, whose target
date is not before the contribution start date and lies within the
1200-month cap, the payment returned by calculateMonthlyPayment, fed into
calculateCompletionDate, yields a completion date on or before the first
day of the month immediately following the target date's month. -/
theorem roundTrip_nextMonth_bound (jsLog : ℚ → ℚ) (jsPow : ℚ → ℚ → ℚ)
    (now targetDate createdAt : JsDate)
    (targetAmount initialAmount annualRate : ℚ)
    (HP : ∀ x : ℚ, ∀ k : ℕ, jsPow x (k : ℚ) = x ^ k)
    (L1 : ∀ a b : ℚ, 0 < a → a ≤ b → jsLog a ≤ jsLog b)
    (L2 : ∀ x : ℚ, 1 < x → 0 < jsLog x)
    (L3 : ∀ x : ℚ, 1 ≤ x → ∀ n : ℕ, jsLog (x ^ n) ≤ (n : ℚ) * jsLog x)
    (ht : 0 < targetAmount) (hi : 0 ≤ initialAmount) (hlt : initialAmount < targetAmount)
    (hr0 : 0 ≤ annualRate) (hr1 : annualRate ≤ 100)
    (hday : 1 ≤ targetDate.day)
    (hstart : dateLe (getContributionStartDate createdAt) targetDate)
    (hcap : calculateContributionPeriods (getContributionStartDate createdAt) targetDate
      ≤ 1200) :
    dateLe
      (calculateCompletionDate jsLog now targetAmount initialAmount
        (calculateMonthlyPayment jsPow targetAmount initialAmount targetDate createdAt annualRate)
        annualRate createdAt)
      (getContributionStartDate targetDate) := by
  have hn1 : (1 : ℤ) ≤ calculateContributionPeriods (getContributionStartDate createdAt)
      targetDate := le_max_left 1 _
  have hrm : 0 ≤ annualRate / 100 / 12 := by positivity
  have hple : calculatePayment jsPow targetAmount initialAmount (annualRate / 100 / 12)
      (calculateContributionPeriods (getContributionStartDate createdAt) targetDate) ≤
      calculateMonthlyPayment jsPow targetAmount initialAmount targetDate createdAt
        annualRate := by
    unfold calculateMonthlyPayment
    dsimp only
    refine le_trans ?_ (le_max_right 0 _)
    have h1 := Int.le_ceil (calculatePayment jsPow targetAmount initialAmount
      (annualRate / 100 / 12)
      (calculateContributionPeriods (getContributionStartDate createdAt) targetDate) * 100)
    linarith
  have hp0 : 0 ≤ calculateMonthlyPayment jsPow targetAmount initialAmount targetDate createdAt
      annualRate := by
    unfold calculateMonthlyPayment
    dsimp only
    exact le_max_left 0 _
  obtain ⟨hguard, q, hper, hqle⟩ :=
    payment_periods_bound jsLog jsPow HP L1 L2 L3 ht hi hlt hrm hn1 hple hp0
  have hq1200 : q ≤ 1200 := le_trans hqle (by exact_mod_cast hcap)
  rw [completion_eq_of_periods jsLog now createdAt targetAmount initialAmount _ annualRate
    hlt hguard hper hq1200]
  have hceil : ⌈q⌉ ≤ calculateContributionPeriods (getContributionStartDate createdAt)
      targetDate := Int.ceil_le.mpr hqle
  have hnval : calculateContributionPeriods (getContributionStartDate createdAt) targetDate =
      (targetDate.year - (getContributionStartDate createdAt).year) * 12 +
      (targetDate.month - (getContributionStartDate createdAt).month) + 1 := by
    unfold calculateContributionPeriods
    dsimp only
    rw [if_pos hday]
    refine max_eq_right ?_
    unfold dateLe monthIdx at hstart
    omega
  refine dateLe_of_le _ _ ?_ ?_
  · rw [monthIdx_addMonths]
    have e1 := monthIdx_contribStart targetDate
    unfold monthIdx at e1 ⊢
    omega
  · rw [day_addMonths, day_contribStart, day_contribStart]

/-- Witness for C1 amended at the end-to-end scenario of the spec: goal
created 2024-01-15, target 10000, initial 1000, rate 5, target date
2025-01-01. -/
theorem roundTrip_nextMonth_bound_witness :
    dateLe
      (calculateCompletionDate jsLogQ ⟨2024, 5, 5⟩ 10000 1000
        (calculateMonthlyPayment jsPowQ 10000 1000 ⟨2025, 0, 1⟩ ⟨2024, 0, 15⟩ 5) 5 ⟨2024, 0, 15⟩)
      (getContributionStartDate ⟨2025, 0, 1⟩) :=
  roundTrip_nextMonth_bound jsLogQ jsPowQ ⟨2024, 5, 5⟩ ⟨2025, 0, 1⟩ ⟨2024, 0, 15⟩
    10000 1000 5 jsPowQ_natCast jsLogQ_mono jsLogQ_pos jsLogQ_pow_le
    (by norm_num) (by norm_num) (by norm_num) (by norm_num) (by norm_num)
    (by decide) (by decide) (by decide)

end VisionFund
